import Mathlib

/-!
Verification of the multi-agent tourism backend.

Shallow embedding of the orchestration engine (`backend/agents/parent_agent.py`),
the resilience layer (`backend/utils/cache.py`, the rate limiter in
`backend/main.py`, the retry loop in `backend/services/geocoding_service.py`)
and the places filtering pipeline (`backend/services/places_service.py`).
Python strings are modelled as `String` / `List Char`, dictionaries as
association lists, wall-clock instants as integers passed explicitly, and the
fallible upstream calls as oracle parameters enumerating their outcomes.
-/

namespace Tourism

/-! ## Substring containment (Python's `in` operator on strings) -/

/-- Tests whether `needle` is an initial segment of `hay`, character by
character. -/
def headMatches : List Char → List Char → Bool
  | [], _ => true
  | _ :: _, [] => false
  | a :: as, b :: bs => a == b && headMatches as bs

/-- Python's `needle in hay` on strings: `needle` occurs contiguously in
`hay`. -/
def substrIn (needle : List Char) : List Char → Bool
  | [] => needle.isEmpty
  | c :: rest => headMatches needle (c :: rest) || substrIn needle rest

/-- Specification-level substring relation: `hay` splits around `needle`. -/
def SubstringOf (needle hay : List Char) : Prop :=
  ∃ l r, hay = l ++ needle ++ r

/-! ## Intent classifier (`ParentAgent._analyze_intent`) -/

/-- The lowercased character sequence of a query, as produced by
`state["location"].lower()`. -/
def lowerChars (s : String) : List Char :=
  s.data.map Char.toLower

/-- Weather-indicating keywords from `_analyze_intent`. -/
def weatherKeywords : List (List Char) :=
  ["weather".data, "temperature".data, "rain".data, "forecast".data]

/-- Places-indicating keywords from `_analyze_intent`. -/
def placesKeywords : List (List Char) :=
  ["places".data, "visit".data, "attractions".data, "plan".data, "trip".data, "go".data]

/-- The query mentions weather, per the code's keyword scan. -/
def hasWeatherKw (s : String) : Bool :=
  weatherKeywords.any fun k => substrIn k (lowerChars s)

/-- The query mentions places, per the code's keyword scan. -/
def hasPlacesKw (s : String) : Bool :=
  placesKeywords.any fun k => substrIn k (lowerChars s)

/-- Node `ParentAgent._analyze_intent`: rule-based intent detection over the
lowercased location text. -/
def analyzeIntent (s : String) : String :=
  if hasWeatherKw s && !hasPlacesKw s then "weather"
  else if hasPlacesKw s && !hasWeatherKw s then "places"
  else "both"

/-- Specification-level "contains a weather keyword". -/
def HasWeatherKeyword (s : String) : Prop :=
  ∃ k ∈ weatherKeywords, SubstringOf k (lowerChars s)

/-- Specification-level "contains a places keyword". -/
def HasPlacesKeyword (s : String) : Prop :=
  ∃ k ∈ placesKeywords, SubstringOf k (lowerChars s)

/-! ## Child worker results (`weather_agent.py`, `places_agent.py`) -/

/-- Geocoder result shape (`GeocodingService.geocode` success value). -/
structure GeoResult where
  lat : Int
  lon : Int
  display_name : String
  deriving DecidableEq

/-- Weather provider reading (`WeatherService.get_current_weather` value). -/
structure WeatherReading where
  temperature : Int
  precipitation_probability : Int
  deriving DecidableEq

/-- Dictionary returned by `WeatherAgent.get_weather` on success. -/
structure WeatherData where
  success : Bool
  weather_text : String
  temperature : Int
  precipitation_probability : Int
  location : String
  deriving DecidableEq

/-- Dictionary returned by `PlacesAgent.get_places` on success. -/
structure PlacesData where
  success : Bool
  places_text : String
  places : List String
  location : String
  deriving DecidableEq

/-- Mirrors `display_name.split(',')[0]`: the text before the first comma. -/
def cityNameChars : List Char → List Char
  | [] => []
  | c :: rest => if c == ',' then [] else c :: cityNameChars rest

/-- City display name derived from the geocoder's display name. -/
def cityName (display : String) : String :=
  String.mk (cityNameChars display.data)

/-- Success path of `WeatherAgent.get_weather`: format the geocoded city and the
provider reading into the result dictionary. -/
def weatherAgentResult (g : GeoResult) (r : WeatherReading) : WeatherData :=
  let city := cityName g.display_name
  { success := true
    weather_text :=
      "In " ++ city ++ " it's currently " ++ toString r.temperature ++
        "°C " ++ "with a chance of " ++ toString r.precipitation_probability ++
        "% to rain."
    temperature := r.temperature
    precipitation_probability := r.precipitation_probability
    location := city }

/-- Success path of `PlacesAgent.get_places`. -/
def placesAgentResult (g : GeoResult) (ps : List String) : PlacesData :=
  let city := cityName g.display_name
  { success := true
    places_text :=
      if ps.isEmpty then
        "I couldn't find tourist attractions in " ++ city ++ "."
      else
        "In " ++ city ++ " these are the places you can go,\n\n" ++
          String.intercalate "\n" (ps.map fun place => "- " ++ place)
    places := ps
    location := city }

/-! ## Orchestrator (`ParentAgent`) -/

/-- Outcome of one child-worker invocation, as observed by the parent agent's
exception handlers: a successful payload, a `LocationNotFoundError`, or any
other raised exception. -/
inductive FetchOutcome (α : Type) where
  | ok : α → FetchOutcome α
  | locationNotFound : FetchOutcome α
  | otherError : FetchOutcome α
  deriving DecidableEq

/-- The `AgentState` TypedDict threaded through the LangGraph workflow.
The `weather_data` / `places_data` dictionaries start out empty (`{}`,
falsy); `Option.none` models the empty dictionary. -/
structure AgentState where
  location : String
  query_type : String
  weather_data : Option WeatherData
  places_data : Option PlacesData
  error : Bool
  error_message : String
  response : String
  deriving DecidableEq

/-- The initial state built at the top of `ParentAgent.process_query`. -/
def initState (location : String) : AgentState :=
  { location := location
    query_type := ""
    weather_data := none
    places_data := none
    error := false
    error_message := ""
    response := "" }

/-- The `analyze_intent` node: store the classified intent. -/
def analyzeIntentNode (s : AgentState) : AgentState :=
  { s with query_type := analyzeIntent s.location }

/-- Node `ParentAgent._fetch_weather`: on success store the payload; on
`LocationNotFoundError` or any other exception set the error flag and
message. -/
def fetchWeatherStep (w : FetchOutcome WeatherData) (s : AgentState) : AgentState :=
  match w with
  | .ok d => { s with weather_data := some d }
  | .locationNotFound =>
      { s with error := true, error_message := "I don't know this place exists" }
  | .otherError =>
      { s with error := true, error_message := "Unable to fetch weather information" }

/-- Node `ParentAgent._fetch_places`: symmetric to the weather step. -/
def fetchPlacesStep (p : FetchOutcome PlacesData) (s : AgentState) : AgentState :=
  match p with
  | .ok d => { s with places_data := some d }
  | .locationNotFound =>
      { s with error := true, error_message := "I don't know this place exists" }
  | .otherError =>
      { s with error := true, error_message := "Unable to fetch places information" }

/-- Worker steps instrumented with an invocation log, to reason about which
workers actually ran. -/
def fetchWeatherT (w : FetchOutcome WeatherData) (sl : AgentState × List String) :
    AgentState × List String :=
  (fetchWeatherStep w sl.1, sl.2 ++ ["fetch_weather"])

/-- Places worker step with invocation log. -/
def fetchPlacesT (p : FetchOutcome PlacesData) (sl : AgentState × List String) :
    AgentState × List String :=
  (fetchPlacesStep p sl.1, sl.2 ++ ["fetch_places"])

/-- Node `ParentAgent._fetch_both`: weather first, then places only when the state
carries no error. -/
def fetchBothT (w : FetchOutcome WeatherData) (p : FetchOutcome PlacesData)
    (sl : AgentState × List String) : AgentState × List String :=
  let sl1 := fetchWeatherT w sl
  if sl1.1.error then sl1 else fetchPlacesT p sl1

/-- Routing `ParentAgent._route_based_on_intent` plus the conditional edges: dispatch
to exactly one fetch branch. -/
def dispatchT (w : FetchOutcome WeatherData) (p : FetchOutcome PlacesData)
    (sl : AgentState × List String) : AgentState × List String :=
  if sl.1.query_type == "weather" then fetchWeatherT w sl
  else if sl.1.query_type == "places" then fetchPlacesT p sl
  else fetchBothT w p sl

/-- Mirrors `" ".join(parts)`. -/
def joinSpace : List String → String
  | [] => ""
  | [x] => x
  | x :: y :: rest => x ++ " " ++ joinSpace (y :: rest)

/-- The final response string computed by `ParentAgent._aggregate_response`
(the node writes only `state["response"]`). -/
def aggResponse (s : AgentState) : String :=
  if s.error then s.error_message
  else
    let wparts : List String :=
      match s.weather_data with
      | some w => if w.success then [w.weather_text] else []
      | none => []
    let pparts : List String :=
      match s.places_data with
      | some p => if p.success then [p.places_text] else []
      | none => []
    let parts := wparts ++ pparts
    if parts.isEmpty then "I couldn't find information for this location."
    else joinSpace parts

/-- Node `ParentAgent._aggregate_response`: store the aggregated response. -/
def aggregate (s : AgentState) : AgentState :=
  { s with response := aggResponse s }

/-- Run the compiled graph: analyze, dispatch, aggregate; also return the
invocation log of the fetch nodes. -/
def runWorkflow (w : FetchOutcome WeatherData) (p : FetchOutcome PlacesData)
    (loc : String) : AgentState × List String :=
  let sl := dispatchT w p (analyzeIntentNode (initState loc), [])
  (aggregate sl.1, sl.2)

/-- JSON-ish values stored in the response dictionary of `process_query`. -/
inductive JValue where
  | b : Bool → JValue
  | s : String → JValue
  | w : WeatherData → JValue
  | p : PlacesData → JValue
  deriving DecidableEq

/-- Model of `ParentAgent.process_query`: the response envelope, modelled as the
association list of keys actually inserted into the Python dictionary —
`weather` / `places` are added only when the corresponding state entry is a
non-empty dictionary. -/
def processQuery (w : FetchOutcome WeatherData) (p : FetchOutcome PlacesData)
    (loc : String) : List (String × JValue) :=
  let f := (runWorkflow w p loc).1
  [("success", JValue.b (!f.error)), ("response", JValue.s f.response),
    ("query_type", JValue.s f.query_type), ("location", JValue.s loc)] ++
  (match f.weather_data with
   | some wd => [("weather", JValue.w wd)]
   | none => []) ++
  (match f.places_data with
   | some pd => [("places", JValue.p pd)]
   | none => [])

/-! ## TTL cache (`SimpleCache` in `backend/utils/cache.py`)

Wall-clock instants (`datetime.now()`) are modelled as integers passed
explicitly; the backing dictionary as an association list. -/

/-- In-memory cache with TTL support: stored entries are `(value, expiry)`
pairs keyed by strings. -/
structure SimpleCache (V : Type) where
  cache : List (String × (V × Int))
  ttl_seconds : Int
  deriving DecidableEq

/-- Dictionary deletion / key overwrite helper. -/
def dictErase {V : Type} (l : List (String × V)) (key : String) : List (String × V) :=
  l.filter fun kv => !(kv.1 == key)

/-- Mirrors `SimpleCache.get`: return the value when present and not expired; an
entry whose expiry lies strictly in the past is deleted and reported as a
miss. Returns the (possibly shrunk) cache alongside the result. -/
def cacheGet {V : Type} (c : SimpleCache V) (now : Int) (key : String) :
    Option V × SimpleCache V :=
  match c.cache.lookup key with
  | none => (none, c)
  | some (v, expiry) =>
    if expiry < now then (none, { c with cache := dictErase c.cache key })
    else (some v, c)

/-- Mirrors `SimpleCache.set`: store the value with expiry `now + ttl_seconds`. -/
def cacheSet {V : Type} (c : SimpleCache V) (now : Int) (key : String) (v : V) :
    SimpleCache V :=
  { c with cache := (key, (v, now + c.ttl_seconds)) :: dictErase c.cache key }

/-! ## Fixed-window rate limiter (`plan_trip` in `backend/main.py`) -/

/-- Drop the timestamps that fell out of the trailing window:
`[t for t in storage if current_time - t < RATE_LIMIT_WINDOW]`. -/
def pruneWindow (window now : Nat) (ts : List Nat) : List Nat :=
  ts.filter fun t => decide (now - t < window)

/-- One admission check for a client: prune, reject when the pruned count has
reached the quota, otherwise record the new timestamp. Returns
(admitted?, stored timestamp list after the call). -/
def rateLimitCheck (quota window : Nat) (st : List Nat) (now : Nat) :
    Bool × List Nat :=
  let pruned := pruneWindow window now st
  if quota ≤ pruned.length then (false, pruned)
  else (true, pruned ++ [now])

/-- Run a sequence of calls at the given instants against one client's
storage, collecting the admission verdicts. -/
def runCalls (quota window : Nat) : List Nat → List Nat → List Bool × List Nat
  | [], st => ([], st)
  | t :: rest, st =>
    let r := rateLimitCheck quota window st t
    let rr := runCalls quota window rest r.2
    (r.1 :: rr.1, rr.2)

/-! ## Geocoding retry loop (`GeocodingService.geocode`) -/

/-- Outcome of a single HTTP attempt inside the retry loop. -/
inductive AttemptOutcome where
  | ok : GeoResult → AttemptOutcome
  | rateLimited : AttemptOutcome
  | httpError : AttemptOutcome
  | notFound : AttemptOutcome
  deriving DecidableEq

/-- What `geocode` does overall: return a result or raise one of the two
classified errors. `noResult` mirrors Python's implicit `None` when the
`for` loop body never runs (only possible with a zero retry bound). -/
inductive GeocodeOutcome where
  | ok : GeoResult → GeocodeOutcome
  | locationNotFoundError : GeocodeOutcome
  | rateLimitError : GeocodeOutcome
  | noResult : GeocodeOutcome
  deriving DecidableEq

/-- A transient failure in the sense of the retry loop: HTTP 429 or an
`httpx.HTTPError`. -/
def transientAttempt : AttemptOutcome → Prop
  | .rateLimited => True
  | .httpError => True
  | _ => False

instance (o : AttemptOutcome) : Decidable (transientAttempt o) := by
  unfold transientAttempt
  cases o <;> simp <;> infer_instance

/-- The body of `for attempt in range(MAX_RETRIES)`, recursing on the
remaining fuel; returns the outcome, the number of attempts actually made,
and the list of back-off delays slept between attempts. A 429 response on
the last allowed attempt raises `RateLimitError`; an `httpx.HTTPError`
there raises `LocationNotFoundError`; an empty geocoder response raises
`LocationNotFoundError` at once; otherwise the loop sleeps
`RETRY_DELAY * (attempt + 1)` and retries. -/
def retryAux (oracle : Nat → AttemptOutcome) (maxR baseDelay : Nat) :
    Nat → Nat → GeocodeOutcome × Nat × List Nat
  | _, 0 => (.noResult, 0, [])
  | attempt, fuel + 1 =>
    match oracle attempt with
    | .ok g => (.ok g, 1, [])
    | .notFound => (.locationNotFoundError, 1, [])
    | .rateLimited =>
      if attempt < maxR - 1 then
        let r := retryAux oracle maxR baseDelay (attempt + 1) fuel
        (r.1, r.2.1 + 1, baseDelay * (attempt + 1) :: r.2.2)
      else (.rateLimitError, 1, [])
    | .httpError =>
      if attempt < maxR - 1 then
        let r := retryAux oracle maxR baseDelay (attempt + 1) fuel
        (r.1, r.2.1 + 1, baseDelay * (attempt + 1) :: r.2.2)
      else (.locationNotFoundError, 1, [])

/-- Runs `GeocodingService.geocode` on a cache miss: run the retry loop from
attempt 0 with `MAX_RETRIES` as fuel. -/
def geocodeRetry (oracle : Nat → AttemptOutcome) (maxR baseDelay : Nat) :
    GeocodeOutcome × Nat × List Nat :=
  retryAux oracle maxR baseDelay 0 maxR

/-- The expected back-off schedule: `k` sleeps of `baseDelay * (attempt+1)`
starting at 0-based attempt `a`. -/
def backoffDelays (d : Nat) : Nat → Nat → List Nat
  | _, 0 => []
  | a, k + 1 => d * (a + 1) :: backoffDelays d (a + 1) k

/-! ## Places filtering (`PlacesService.get_tourist_attractions`) -/

/-- An Overpass element as consumed by the filter: optional `name` tag and
the `tourism` / `leisure` / `historic` tags defaulting to `""`. -/
structure OsmElement where
  name : Option String
  tourism : String
  leisure : String
  historic : String
  deriving DecidableEq

/-- The curated categories of the first pass. -/
def relevantTypes : List String :=
  ["attraction", "museum", "gallery", "viewpoint",
   "zoo", "theme_park", "park", "monument",
   "palace", "castle", "fort", "memorial"]

/-- Mirrors `any(t in tourism_type or t in leisure_type or t in historic_type ...)`. -/
def isNotable (e : OsmElement) : Bool :=
  relevantTypes.any fun t =>
    substrIn t.data e.tourism.data || substrIn t.data e.leisure.data ||
      substrIn t.data e.historic.data

/-- The element's `name` tag when present and truthy (non-empty). -/
def elementName (e : OsmElement) : Option String :=
  match e.name with
  | some n => if n == "" then none else some n
  | none => none

/-- First pass: collect names of notable elements, recording every fresh
name (notable or not stays faithful: only appended names enter `seen`). -/
def firstPass : List OsmElement → List String → List String →
    List String × List String
  | [], places, seen => (places, seen)
  | e :: rest, places, seen =>
    match elementName e with
    | some n =>
      if seen.contains n then firstPass rest places seen
      else if isNotable e then firstPass rest (places ++ [n]) (seen ++ [n])
      else firstPass rest places seen
    | none => firstPass rest places seen

/-- Fallback pass: fill the result up to 5 entries with any fresh named
element, checking the length bound at the top of each iteration. -/
def secondPass : List OsmElement → List String → List String → List String
  | [], result, _ => result
  | e :: rest, result, seen =>
    if 5 ≤ result.length then result
    else
      match elementName e with
      | some n =>
        if seen.contains n then secondPass rest result seen
        else secondPass rest (result ++ [n]) (seen ++ [n])
      | none => secondPass rest result seen

/-- Mirrors the `PlacesService.get_tourist_attractions` filtering pipeline over the
provider's element list. -/
def getTouristAttractions (elements : List OsmElement) : List String :=
  let fp := firstPass elements [] []
  let result := fp.1.take 5
  let result2 := if result.length < 5 then secondPass elements result fp.2 else result
  result2.take 5

/-! ## Sample data used by concrete instantiations -/

/-- The end-to-end weather query of the spec's test list. -/
def parisLoc : String := "What's the weather in Paris?"

/-- Weather worker payload for a geocoder resolving Paris and a provider
returning temperature 18 and precipitation probability 20. -/
def wdParis : WeatherData :=
  weatherAgentResult ⟨48, 2, "Paris, Ile-de-France, France"⟩ ⟨18, 20⟩

/-- A places worker payload used to instantiate scenarios. -/
def pdSample : PlacesData :=
  placesAgentResult ⟨48, 2, "Paris, Ile-de-France, France"⟩ ["Louvre"]

/-! # Theorems -/

theorem headMatches_iff (needle hay : List Char) :
    headMatches needle hay = true ↔ ∃ r, hay = needle ++ r := by
  induction needle generalizing hay with
  | nil => simp [headMatches]
  | cons a as ih =>
    cases hay with
    | nil => simp [headMatches]
    | cons b bs =>
      simp only [headMatches, Bool.and_eq_true, beq_iff_eq, ih]
      constructor
      · rintro ⟨rfl, r, rfl⟩; exact ⟨r, rfl⟩
      · rintro ⟨r, h⟩
        injection h with h1 h2
        exact ⟨h1.symm, r, h2⟩

theorem substrIn_iff (needle hay : List Char) :
    substrIn needle hay = true ↔ SubstringOf needle hay := by
  induction hay with
  | nil =>
    simp only [substrIn, List.isEmpty_iff, SubstringOf]
    constructor
    · rintro rfl; exact ⟨[], [], rfl⟩
    · rintro ⟨l, r, h⟩
      rcases List.append_eq_nil.mp h.symm with ⟨h1, h2⟩
      exact (List.append_eq_nil.mp h1).2
  | cons c rest ih =>
    simp only [substrIn, Bool.or_eq_true, headMatches_iff, ih, SubstringOf]
    constructor
    · rintro (⟨r, h⟩ | ⟨l, r, h⟩)
      · exact ⟨[], r, by simpa using h⟩
      · exact ⟨c :: l, r, by simp [h]⟩
    · rintro ⟨l, r, h⟩
      cases l with
      | nil => exact Or.inl ⟨r, by simpa using h⟩
      | cons x xs =>
        injection h with h1 h2
        exact Or.inr ⟨xs, r, h2⟩

theorem hasWeatherKw_iff (s : String) :
    hasWeatherKw s = true ↔ HasWeatherKeyword s := by
  simp only [hasWeatherKw, List.any_eq_true, substrIn_iff, HasWeatherKeyword]

theorem hasPlacesKw_iff (s : String) :
    hasPlacesKw s = true ↔ HasPlacesKeyword s := by
  simp only [hasPlacesKw, List.any_eq_true, substrIn_iff, HasPlacesKeyword]

/-- C2. Intent classification is a pure, total function over arbitrary
strings: a weather keyword without a places keyword yields `"weather"`, a
places keyword without a weather keyword yields `"places"`, and every other
combination (both kinds, or neither) yields `"both"`. -/
theorem analyzeIntent_decision_table (s : String) :
    (HasWeatherKeyword s ∧ ¬ HasPlacesKeyword s → analyzeIntent s = "weather") ∧
    (HasPlacesKeyword s ∧ ¬ HasWeatherKeyword s → analyzeIntent s = "places") ∧
    (HasWeatherKeyword s ∧ HasPlacesKeyword s → analyzeIntent s = "both") ∧
    (¬ HasWeatherKeyword s ∧ ¬ HasPlacesKeyword s → analyzeIntent s = "both") := by
  rw [← hasWeatherKw_iff, ← hasPlacesKw_iff]
  unfold analyzeIntent
  cases hw : hasWeatherKw s <;> cases hp : hasPlacesKw s <;> simp

/-- Witness for C2: the four rows of the decision table at concrete
queries. -/
theorem analyzeIntent_decision_table_witness :
    analyzeIntent "rain today" = "weather" ∧
    analyzeIntent "visit today" = "places" ∧
    analyzeIntent "rain trip" = "both" ∧
    analyzeIntent "Hamburg" = "both" :=
  ⟨(analyzeIntent_decision_table "rain today").1
      ⟨by rw [← hasWeatherKw_iff]; decide, by rw [← hasPlacesKw_iff]; decide⟩,
   (analyzeIntent_decision_table "visit today").2.1
      ⟨by rw [← hasPlacesKw_iff]; decide, by rw [← hasWeatherKw_iff]; decide⟩,
   (analyzeIntent_decision_table "rain trip").2.2.1
      ⟨by rw [← hasWeatherKw_iff]; decide, by rw [← hasPlacesKw_iff]; decide⟩,
   (analyzeIntent_decision_table "Hamburg").2.2.2
      ⟨by rw [← hasWeatherKw_iff]; decide, by rw [← hasPlacesKw_iff]; decide⟩⟩

/-- C9. Keyword matching is substring containment over the lowercased
query, not word membership: the bare location `"Chicago"` classifies as
`"places"` (the keyword `"go"` occurs inside `"chicago"`), not `"both"`. -/
theorem analyzeIntent_chicago :
    analyzeIntent "Chicago" = "places" ∧ analyzeIntent "Chicago" ≠ "both" := by
  constructor <;> decide

/-- C3. In the "both" branch the weather worker runs first; the places
worker runs if and only if the weather step left the error flag unset; and
when weather fails the resulting state is exactly the weather-failed state
(first-failure-wins: places is never attempted and the failure message is
the weather failure's message). -/
theorem fetchBoth_first_failure_wins (loc : String) (w : FetchOutcome WeatherData)
    (p : FetchOutcome PlacesData) :
    (fetchBothT w p (analyzeIntentNode (initState loc), [])).2.head? =
      some "fetch_weather" ∧
    ("fetch_places" ∈ (fetchBothT w p (analyzeIntentNode (initState loc), [])).2 ↔
      (fetchWeatherStep w (analyzeIntentNode (initState loc))).error = false) ∧
    ((fetchWeatherStep w (analyzeIntentNode (initState loc))).error = true →
      (fetchBothT w p (analyzeIntentNode (initState loc), [])).1 =
        fetchWeatherStep w (analyzeIntentNode (initState loc)) ∧
      (fetchBothT w p (analyzeIntentNode (initState loc), [])).2 = ["fetch_weather"]) := by
  cases w <;>
    simp [fetchBothT, fetchWeatherT, fetchPlacesT, fetchWeatherStep,
      analyzeIntentNode, initState]

/-- Witness for C3: with a failing weather worker the places worker is
not invoked and the weather failure's state is final. -/
theorem fetchBoth_first_failure_wins_witness :
    (fetchWeatherStep .otherError (analyzeIntentNode (initState "x"))).error = true ∧
    (fetchBothT .otherError (.ok pdSample) (analyzeIntentNode (initState "x"), [])).2 =
      ["fetch_weather"] :=
  ⟨by decide,
   ((fetchBoth_first_failure_wins "x" .otherError (.ok pdSample)).2.2 (by decide)).2⟩

theorem aggregate_error (s : AgentState) : (aggregate s).error = s.error := rfl

theorem aggregate_message (s : AgentState) :
    (aggregate s).error_message = s.error_message := rfl

theorem aggregate_query_type (s : AgentState) :
    (aggregate s).query_type = s.query_type := rfl

theorem aggregate_response_of_error (s : AgentState) (h : s.error = true) :
    (aggregate s).response = s.error_message := by
  simp [aggregate, aggResponse, h]

theorem lookup_success (w : FetchOutcome WeatherData) (p : FetchOutcome PlacesData)
    (loc : String) :
    List.lookup "success" (processQuery w p loc) =
      some (JValue.b (!(runWorkflow w p loc).1.error)) := rfl

theorem lookup_response (w : FetchOutcome WeatherData) (p : FetchOutcome PlacesData)
    (loc : String) :
    List.lookup "response" (processQuery w p loc) =
      some (JValue.s (runWorkflow w p loc).1.response) := rfl

theorem lookup_query_type (w : FetchOutcome WeatherData) (p : FetchOutcome PlacesData)
    (loc : String) :
    List.lookup "query_type" (processQuery w p loc) =
      some (JValue.s (runWorkflow w p loc).1.query_type) := rfl

theorem lookup_location (w : FetchOutcome WeatherData) (p : FetchOutcome PlacesData)
    (loc : String) :
    List.lookup "location" (processQuery w p loc) = some (JValue.s loc) := rfl

theorem lookup_weather (w : FetchOutcome WeatherData) (p : FetchOutcome PlacesData)
    (loc : String) :
    List.lookup "weather" (processQuery w p loc) =
      ((runWorkflow w p loc).1.weather_data).map JValue.w := by
  cases h : (runWorkflow w p loc).1.weather_data <;>
    cases h2 : (runWorkflow w p loc).1.places_data <;>
      simp [processQuery, List.lookup, h, h2]

theorem lookup_places (w : FetchOutcome WeatherData) (p : FetchOutcome PlacesData)
    (loc : String) :
    List.lookup "places" (processQuery w p loc) =
      ((runWorkflow w p loc).1.places_data).map JValue.p := by
  cases h : (runWorkflow w p loc).1.weather_data <;>
    cases h2 : (runWorkflow w p loc).1.places_data <;>
      simp [processQuery, List.lookup, h, h2]

theorem runWorkflow_notfound (loc : String) :
    (runWorkflow .locationNotFound .locationNotFound loc).1.error = true ∧
    (runWorkflow .locationNotFound .locationNotFound loc).1.error_message =
      "I don't know this place exists" := by
  show (aggregate (dispatchT _ _ _).1).error = true ∧
    (aggregate (dispatchT _ _ _).1).error_message = _
  rw [aggregate_error, aggregate_message]
  unfold dispatchT
  split
  · exact ⟨rfl, rfl⟩
  · split
    · exact ⟨rfl, rfl⟩
    · exact ⟨rfl, rfl⟩

/-- C1 (amended). Whenever a fetch step has failed, `process_query`
returns `success = false` and the response string is exactly the recorded
failure message — in particular, when geocoding fails with
location-not-found in every attempted branch the response is exactly
"I don't know this place exists". (The original claim's further assertion
that the envelope never carries a payload from a branch that succeeded
before the failure is false, see the counterexample: the weather payload is
kept in the envelope when the places fetch fails afterwards.) -/
theorem processQuery_failure_semantics (loc : String)
    (w : FetchOutcome WeatherData) (p : FetchOutcome PlacesData) :
    ((runWorkflow w p loc).1.error = true →
      List.lookup "success" (processQuery w p loc) = some (JValue.b false) ∧
      List.lookup "response" (processQuery w p loc) =
        some (JValue.s (runWorkflow w p loc).1.error_message)) ∧
    (w = .locationNotFound → p = .locationNotFound →
      List.lookup "success" (processQuery w p loc) = some (JValue.b false) ∧
      List.lookup "response" (processQuery w p loc) =
        some (JValue.s "I don't know this place exists")) := by
  have hrw : (runWorkflow w p loc).1 =
      aggregate (dispatchT w p (analyzeIntentNode (initState loc), [])).1 := rfl
  constructor
  · intro h
    refine ⟨by rw [lookup_success, h]; rfl, ?_⟩
    rw [lookup_response]
    have hst : (dispatchT w p (analyzeIntentNode (initState loc), [])).1.error = true := by
      rw [hrw, aggregate_error] at h; exact h
    rw [hrw, aggregate_message, aggregate_response_of_error _ hst]
  · rintro rfl rfl
    rcases runWorkflow_notfound loc with ⟨he, hm⟩
    refine ⟨by rw [lookup_success, he]; rfl, ?_⟩
    rw [lookup_response]
    have hst : (dispatchT (FetchOutcome.locationNotFound)
        (FetchOutcome.locationNotFound) (analyzeIntentNode (initState loc), [])).1.error
        = true := by
      rw [hrw, aggregate_error] at he; exact he
    rw [hrw, aggregate_response_of_error _ hst]
    rw [hrw, aggregate_message] at hm
    rw [hm]

/-- Witness for C1 (amended): the spec's end-to-end not-found scenario at
`"INVALIDXYZ123"`. -/
theorem processQuery_failure_semantics_witness :
    List.lookup "success"
      (processQuery .locationNotFound .locationNotFound "INVALIDXYZ123") =
      some (JValue.b false) ∧
    List.lookup "response"
      (processQuery .locationNotFound .locationNotFound "INVALIDXYZ123") =
      some (JValue.s "I don't know this place exists") :=
  (processQuery_failure_semantics "INVALIDXYZ123" .locationNotFound
    .locationNotFound).2 rfl rfl

/-- Counterexample for C1 as stated: with a weather worker that
succeeds and a places worker that then fails, the returned envelope has
`success = false` yet still carries the weather payload of the branch that
succeeded before the failure. -/
theorem processQuery_partial_data_cex :
    List.lookup "success" (processQuery (.ok wdParis) .otherError "x") =
      some (JValue.b false) ∧
    List.lookup "weather" (processQuery (.ok wdParis) .otherError "x") =
      some (JValue.w wdParis) := by
  constructor <;> decide

theorem fetchWeatherStep_query_type (w : FetchOutcome WeatherData) (s : AgentState) :
    (fetchWeatherStep w s).query_type = s.query_type := by
  cases w <;> rfl

theorem fetchPlacesStep_query_type (p : FetchOutcome PlacesData) (s : AgentState) :
    (fetchPlacesStep p s).query_type = s.query_type := by
  cases p <;> rfl

theorem fetchBothT_query_type (w : FetchOutcome WeatherData)
    (p : FetchOutcome PlacesData) (sl : AgentState × List String) :
    (fetchBothT w p sl).1.query_type = sl.1.query_type := by
  unfold fetchBothT fetchWeatherT fetchPlacesT
  by_cases h : (fetchWeatherStep w sl.1).error = true <;>
    simp [h, fetchWeatherStep_query_type, fetchPlacesStep_query_type]

theorem dispatchT_query_type (w : FetchOutcome WeatherData)
    (p : FetchOutcome PlacesData) (sl : AgentState × List String) :
    (dispatchT w p sl).1.query_type = sl.1.query_type := by
  unfold dispatchT
  split
  · exact fetchWeatherStep_query_type w sl.1
  · split
    · exact fetchPlacesStep_query_type p sl.1
    · exact fetchBothT_query_type w p sl

theorem runWorkflow_query_type (w : FetchOutcome WeatherData)
    (p : FetchOutcome PlacesData) (loc : String) :
    (runWorkflow w p loc).1.query_type = analyzeIntent loc := by
  show (aggregate (dispatchT w p (analyzeIntentNode (initState loc), [])).1).query_type = _
  rw [aggregate_query_type, dispatchT_query_type]
  rfl

/-- C7 (amended). The envelope returned by `process_query` always holds
the fields `success`, `response`, `query_type` (not `intent`: the classified
intent is stored under the key `query_type`) and `location` (equal to the
input); `weather` / `places` are present exactly when the corresponding
fetched payload is, hence only optionally. For the spec's weather-only
end-to-end query with a resolving geocoder and a provider returning
temperature 18 and precipitation probability 20, the envelope has
`success = true`, `query_type = "weather"`, and a response containing
"18" and "20". -/
theorem processQuery_envelope_fields (loc : String)
    (w : FetchOutcome WeatherData) (p : FetchOutcome PlacesData) :
    List.lookup "success" (processQuery w p loc) =
      some (JValue.b (!(runWorkflow w p loc).1.error)) ∧
    List.lookup "response" (processQuery w p loc) =
      some (JValue.s (runWorkflow w p loc).1.response) ∧
    List.lookup "query_type" (processQuery w p loc) =
      some (JValue.s (analyzeIntent loc)) ∧
    List.lookup "location" (processQuery w p loc) = some (JValue.s loc) ∧
    List.lookup "weather" (processQuery w p loc) =
      ((runWorkflow w p loc).1.weather_data).map JValue.w ∧
    List.lookup "places" (processQuery w p loc) =
      ((runWorkflow w p loc).1.places_data).map JValue.p ∧
    List.lookup "success" (processQuery (.ok wdParis) .otherError parisLoc) =
      some (JValue.b true) ∧
    List.lookup "query_type" (processQuery (.ok wdParis) .otherError parisLoc) =
      some (JValue.s "weather") ∧
    ∃ resp, List.lookup "response" (processQuery (.ok wdParis) .otherError parisLoc) =
        some (JValue.s resp) ∧
      substrIn "18".data resp.data = true ∧ substrIn "20".data resp.data = true := by
  refine ⟨lookup_success w p loc, lookup_response w p loc, ?_,
    lookup_location w p loc, lookup_weather w p loc, lookup_places w p loc,
    by decide, by decide, wdParis.weather_text, by decide, by decide, by decide⟩
  rw [lookup_query_type, runWorkflow_query_type]

/-- Counterexample for C7 as stated: already on the spec's own
end-to-end weather query the envelope has no field named `intent`; the
classified intent sits under `query_type` instead. -/
theorem processQuery_no_intent_field_cex :
    List.lookup "intent" (processQuery (.ok wdParis) .otherError parisLoc) = none ∧
    List.lookup "query_type" (processQuery (.ok wdParis) .otherError parisLoc) =
      some (JValue.s "weather") := by
  constructor <;> decide

theorem lookup_dictErase {V : Type} (l : List (String × V)) (key : String) :
    (dictErase l key).lookup key = none := by
  induction l with
  | nil => rfl
  | cons kv t ih =>
    rcases kv with ⟨k, v⟩
    by_cases h : k = key
    · have hb : (k == key) = true := beq_iff_eq.mpr h
      have hstep : dictErase ((k, v) :: t) key = dictErase t key := by
        simp only [dictErase, List.filter, hb, Bool.not_true]
      rw [hstep]; exact ih
    · have hb : (k == key) = false := beq_eq_false_iff_ne.mpr h
      have hstep : dictErase ((k, v) :: t) key = (k, v) :: dictErase t key := by
        simp only [dictErase, List.filter, hb, Bool.not_false]
      rw [hstep]
      have hb2 : (key == k) = false := beq_eq_false_iff_ne.mpr fun hk => h hk.symm
      simp only [List.lookup, hb2]
      exact ih

/-- C6 (amended). After `cache.set(key, value)`, a `get(key)` performed
at any instant up to and including `write time + TTL` returns exactly the
stored value; and every entry whose stored expiry lies strictly in the past
(`expiry < now`) is treated as absent — `get` returns `None` and that
lookup evicts the entry. (The original claim's boundary `expiry <= now` is
wrong: at `now = expiry` the code still returns the value, see the
counterexample.) -/
theorem cacheTTL (V : Type) :
    (∀ (c : SimpleCache V) (now now2 : Int) (key : String) (v : V),
      now2 ≤ now + c.ttl_seconds →
      (cacheGet (cacheSet c now key v) now2 key).1 = some v) ∧
    (∀ (c : SimpleCache V) (now : Int) (key : String) (v : V) (e : Int),
      c.cache.lookup key = some (v, e) → e < now →
      (cacheGet c now key).1 = none ∧
      ((cacheGet c now key).2).cache.lookup key = none) := by
  constructor
  · intro c now now2 key v h
    simp only [cacheGet, cacheSet, List.lookup, beq_self_eq_true]
    rw [if_neg (not_lt.mpr h)]
  · intro c now key v e hl he
    simp only [cacheGet, hl]
    rw [if_pos he]
    exact ⟨rfl, lookup_dictErase c.cache key⟩

/-- Witness for C6 (amended): a fresh entry is readable exactly at the
TTL boundary, and an entry one tick past its expiry is missed and evicted. -/
theorem cacheTTL_witness :
    (cacheGet (cacheSet ({ cache := [], ttl_seconds := 3600 } : SimpleCache Nat)
        0 "k" 7) 3600 "k").1 = some 7 ∧
    (cacheGet ({ cache := [("k", (7, 5))], ttl_seconds := 3600 } : SimpleCache Nat)
        6 "k").1 = none ∧
    ((cacheGet ({ cache := [("k", (7, 5))], ttl_seconds := 3600 } : SimpleCache Nat)
        6 "k").2).cache.lookup "k" = none :=
  ⟨(cacheTTL Nat).1 _ 0 3600 "k" 7 (by decide),
   ((cacheTTL Nat).2 _ 6 "k" 7 5 (by decide) (by decide)).1,
   ((cacheTTL Nat).2 _ 6 "k" 7 5 (by decide) (by decide)).2⟩

/-- Counterexample for C6 as stated: an entry whose expiry equals the
current instant satisfies `expiry <= now`, yet `get` still returns the
stored value rather than treating the key as absent. -/
theorem cache_boundary_cex :
    ({ cache := [("k", (7, 5))], ttl_seconds := 3600 } : SimpleCache Nat).cache.lookup "k"
        = some (7, 5) ∧
    (5 : Int) ≤ 5 ∧
    (cacheGet ({ cache := [("k", (7, 5))], ttl_seconds := 3600 } : SimpleCache Nat)
        5 "k").1 = some 7 := by
  refine ⟨by decide, by decide, by decide⟩

theorem pruneWindow_all_kept (window now : Nat) (ts : List Nat)
    (h : ∀ t ∈ ts, now - t < window) : pruneWindow window now ts = ts :=
  List.filter_eq_self.mpr fun t ht => decide_eq_true (h t ht)

theorem runCalls_window_exact (quota window base : Nat) :
    ∀ (cur st : List Nat),
      (∀ x ∈ st, base ≤ x ∧ x < base + window) →
      (∀ x ∈ cur, base ≤ x ∧ x < base + window) →
      st.length + cur.length = quota + 1 →
      st.length ≤ quota →
      (runCalls quota window cur st).1 =
        List.replicate (quota - st.length) true ++ [false] := by
  intro cur
  induction cur with
  | nil => intro st _ _ hlen hle; simp at hlen; omega
  | cons t rest ih =>
    intro st hst hcur hlen hle
    have hkeep : pruneWindow window t st = st :=
      pruneWindow_all_kept window t st fun s hs => by
        have h1 := hst s hs
        have h2 := hcur t (List.mem_cons_self t rest)
        omega
    simp only [runCalls, rateLimitCheck, hkeep]
    by_cases hq : quota ≤ st.length
    · have hqe : st.length = quota := le_antisymm hle hq
      have hrest : rest = [] := by
        simp at hlen
        exact List.length_eq_zero.mp (by omega)
      subst hrest
      rw [if_pos hq]
      simp [runCalls, hqe]
    · have hmem : ∀ x ∈ st ++ [t], base ≤ x ∧ x < base + window := by
        intro x hx
        rcases List.mem_append.mp hx with hx | hx
        · exact hst x hx
        · rcases List.mem_singleton.mp hx with rfl
          exact hcur x (List.mem_cons_self x rest)
      have hrec := ih (st ++ [t]) hmem
        (fun x hx => hcur x (List.mem_cons_of_mem t hx))
        (by simp at hlen ⊢; omega) (by simp; omega)
      rw [if_neg hq]
      show true :: (runCalls quota window rest (st ++ [t])).1 = _
      rw [hrec]
      have hsplit : quota - st.length = (quota - (st ++ [t]).length) + 1 := by
        simp; omega
      rw [hsplit, List.replicate_succ]
      simp

/-- C5. The fixed-window rate limiter: (i) the stored, pruned timestamp
list never grows beyond the quota; (ii) issuing `quota+1` calls within one
window, starting from fresh storage, admits exactly the first `quota` calls
and rejects exactly the `(quota+1)`-th; (iii) once the window has elapsed
for every stored timestamp, a new call is admitted. -/
theorem rateLimiter_spec (quota window : Nat) :
    (∀ (st : List Nat) (now : Nat), st.length ≤ quota →
      ((rateLimitCheck quota window st now).2).length ≤ quota) ∧
    (∀ (times : List Nat) (base : Nat),
      times.length = quota + 1 →
      (∀ x ∈ times, base ≤ x ∧ x < base + window) →
      (runCalls quota window times []).1 = List.replicate quota true ++ [false]) ∧
    (∀ (st : List Nat) (now : Nat), 0 < quota →
      (∀ t ∈ st, t + window ≤ now) →
      (rateLimitCheck quota window st now).1 = true) := by
  refine ⟨?_, ?_, ?_⟩
  · intro st now hle
    have hp : (pruneWindow window now st).length ≤ st.length :=
      List.length_filter_le _ st
    unfold rateLimitCheck
    by_cases hq : quota ≤ (pruneWindow window now st).length
    · rw [if_pos hq]
      show (pruneWindow window now st).length ≤ quota
      omega
    · rw [if_neg hq]
      show (pruneWindow window now st ++ [now]).length ≤ quota
      simp
      omega
  · intro times base hlen hwin
    have := runCalls_window_exact quota window base times [] (by simp)
      hwin (by simpa using hlen) (by simp)
    simpa using this
  · intro st now hq hold
    have hp : pruneWindow window now st = [] := by
      apply List.filter_eq_nil_iff.mpr
      intro t ht
      have := hold t ht
      simp
      omega
    unfold rateLimitCheck
    rw [hp]
    have hn : ¬ (quota ≤ ([] : List Nat).length) := by simp; omega
    rw [if_neg hn]

/-- Witness for C5: quota 2, window 60 — the invariant at a sample
state, three calls in one window admitting two and rejecting the third, and
admission after the window has passed. -/
theorem rateLimiter_spec_witness :
    ((rateLimitCheck 2 60 [0] 5).2).length ≤ 2 ∧
    (runCalls 2 60 [0, 1, 2] []).1 = [true, true, false] ∧
    (rateLimitCheck 2 60 [0] 60).1 = true :=
  ⟨(rateLimiter_spec 2 60).1 [0] 5 (by decide),
   by
    have := (rateLimiter_spec 2 60).2.1 [0, 1, 2] 0 (by decide)
      (by decide)
    simpa using this,
   (rateLimiter_spec 2 60).2.2 [0] 60 (by decide) (by decide)⟩

theorem backoffDelays_eq (d : Nat) :
    ∀ (k a : Nat), backoffDelays d a k =
      (List.range k).map fun i => d * (a + 1 + i) := by
  intro k
  induction k with
  | zero => intro a; simp [backoffDelays]
  | succ k ih =>
    intro a
    rw [show backoffDelays d a (k + 1) =
        d * (a + 1) :: backoffDelays d (a + 1) k from rfl, ih (a + 1),
      List.range_succ_eq_map, List.map_cons, List.map_map]
    congr 1
    apply List.map_congr_left
    intro x _
    show d * (a + 1 + 1 + x) = d * (a + 1 + Nat.succ x)
    congr 1
    omega

theorem retryAux_success (oracle : Nat → AttemptOutcome) (r d : Nat)
    (g : GeoResult) (hr : 1 ≤ r) :
    ∀ (fuel a : Nat), a + fuel = r → a ≤ r - 1 →
      (∀ i, a ≤ i → i < r - 1 → transientAttempt (oracle i)) →
      oracle (r - 1) = .ok g →
      retryAux oracle r d a fuel =
        (.ok g, r - a, backoffDelays d a (r - 1 - a)) := by
  intro fuel
  induction fuel with
  | zero => intro a hsum hle _ _; exfalso; omega
  | succ fuel ih =>
    intro a hsum hle htrans hsucc
    by_cases hend : a = r - 1
    · subst hend
      simp only [retryAux, hsucc]
      rw [show r - (r - 1) = 1 from by omega, show r - 1 - (r - 1) = 0 from by omega]
      rfl
    · have ha : a < r - 1 := by omega
      have ht := htrans a le_rfl ha
      have h1 : r - (a + 1) + 1 = r - a := by omega
      have h2 : r - 1 - a = (r - 1 - (a + 1)) + 1 := by omega
      have hrec := ih (a + 1) (by omega) (by omega)
        (fun i hi1 hi2 => htrans i (by omega) hi2) hsucc
      cases ho : oracle a with
      | ok g2 => rw [ho] at ht; exact absurd ht (by simp [transientAttempt])
      | notFound => rw [ho] at ht; exact absurd ht (by simp [transientAttempt])
      | rateLimited =>
        simp only [retryAux, ho]
        rw [if_pos ha, hrec, h1, h2]
        rfl
      | httpError =>
        simp only [retryAux, ho]
        rw [if_pos ha, hrec, h1, h2]
        rfl

theorem retryAux_exhaust (oracle : Nat → AttemptOutcome) (r d : Nat) :
    ∀ (fuel a : Nat), a + fuel = r → a < r →
      (∀ i, a ≤ i → i < r → transientAttempt (oracle i)) →
      (retryAux oracle r d a fuel).2.1 = r - a ∧
      ((retryAux oracle r d a fuel).1 = .rateLimitError ∨
       (retryAux oracle r d a fuel).1 = .locationNotFoundError) := by
  intro fuel
  induction fuel with
  | zero => intro a hsum hlt _; exfalso; omega
  | succ fuel ih =>
    intro a hsum hlt htrans
    have ht := htrans a le_rfl hlt
    cases ho : oracle a with
    | ok g2 => rw [ho] at ht; exact absurd ht (by simp [transientAttempt])
    | notFound => rw [ho] at ht; exact absurd ht (by simp [transientAttempt])
    | rateLimited =>
      simp only [retryAux, ho]
      by_cases ha : a < r - 1
      · rw [if_pos ha]
        have hrec := ih (a + 1) (by omega) (by omega)
          (fun i hi1 hi2 => htrans i (by omega) hi2)
        refine ⟨?_, ?_⟩
        · show (retryAux oracle r d (a + 1) fuel).2.1 + 1 = r - a
          omega
        · exact hrec.2
      · rw [if_neg ha]
        exact ⟨by show 1 = r - a; omega, Or.inl rfl⟩
    | httpError =>
      simp only [retryAux, ho]
      by_cases ha : a < r - 1
      · rw [if_pos ha]
        have hrec := ih (a + 1) (by omega) (by omega)
          (fun i hi1 hi2 => htrans i (by omega) hi2)
        refine ⟨?_, ?_⟩
        · show (retryAux oracle r d (a + 1) fuel).2.1 + 1 = r - a
          omega
        · exact hrec.2
      · rw [if_neg ha]
        exact ⟨by show 1 = r - a; omega, Or.inr rfl⟩

theorem retryAux_notFound (oracle : Nat → AttemptOutcome) (r d : Nat) :
    ∀ (fuel a k : Nat), a + fuel = r → a ≤ k → k < r →
      (∀ i, a ≤ i → i < k → transientAttempt (oracle i)) →
      oracle k = .notFound →
      retryAux oracle r d a fuel =
        (.locationNotFoundError, k + 1 - a, backoffDelays d a (k - a)) := by
  intro fuel
  induction fuel with
  | zero => intro a k hsum hak hkr _ _; exfalso; omega
  | succ fuel ih =>
    intro a k hsum hak hkr htrans hk
    by_cases hek : a = k
    · subst hek
      simp only [retryAux, hk]
      rw [show a + 1 - a = 1 from by omega, show a - a = 0 from by omega]
      rfl
    · have ha : a < k := by omega
      have ht := htrans a le_rfl ha
      have halt : a < r - 1 := by omega
      have h1 : k + 1 - (a + 1) + 1 = k + 1 - a := by omega
      have h2 : k - a = (k - (a + 1)) + 1 := by omega
      have hrec := ih (a + 1) k (by omega) (by omega) hkr
        (fun i hi1 hi2 => htrans i (by omega) hi2) hk
      cases ho : oracle a with
      | ok g2 => rw [ho] at ht; exact absurd ht (by simp [transientAttempt])
      | notFound => rw [ho] at ht; exact absurd ht (by simp [transientAttempt])
      | rateLimited =>
        simp only [retryAux, ho]
        rw [if_pos halt, hrec, h1, h2]
        rfl
      | httpError =>
        simp only [retryAux, ho]
        rw [if_pos halt, hrec, h1, h2]
        rfl

/-- C4. The geocoding retry loop with bound `retries` and base delay
`baseDelay`: (i) an operation failing transiently (429 or transport error)
on the first `retries-1` attempts and succeeding on the last returns the
successful result, was attempted exactly `retries` times, and slept the
linearly increasing schedule `attempt * baseDelay` between attempts;
(ii) when every attempt fails transiently the loop makes exactly `retries`
attempts and ends in a terminal classified error; (iii) a not-found result
(empty geocoder response) after any run of transient attempts is raised at
once — the loop stops at that attempt and never retries it. -/
theorem geocodeRetry_spec (oracle : Nat → AttemptOutcome) (g : GeoResult)
    (r d : Nat) (hr : 1 ≤ r) :
    ((∀ i, i < r - 1 → transientAttempt (oracle i)) → oracle (r - 1) = .ok g →
      geocodeRetry oracle r d =
        (.ok g, r, (List.range (r - 1)).map fun i => d * (i + 1))) ∧
    ((∀ i, i < r → transientAttempt (oracle i)) →
      (geocodeRetry oracle r d).2.1 = r ∧
      ((geocodeRetry oracle r d).1 = .rateLimitError ∨
       (geocodeRetry oracle r d).1 = .locationNotFoundError)) ∧
    (∀ k, k < r → (∀ i, i < k → transientAttempt (oracle i)) →
      oracle k = .notFound →
      geocodeRetry oracle r d =
        (.locationNotFoundError, k + 1, (List.range k).map fun i => d * (i + 1))) := by
  refine ⟨?_, ?_, ?_⟩
  · intro htrans hsucc
    have h := retryAux_success oracle r d g hr r 0 (by omega) (by omega)
      (fun i _ hi => htrans i hi) hsucc
    have hmap : List.map (fun i => d * (0 + 1 + i)) (List.range (r - 1 - 0)) =
        List.map (fun i => d * (i + 1)) (List.range (r - 1)) := by
      apply List.map_congr_left
      intro x _
      congr 1
      omega
    rw [geocodeRetry, h, backoffDelays_eq, hmap]
    rfl
  · intro htrans
    have h := retryAux_exhaust oracle r d r 0 (by omega) (by omega)
      (fun i _ hi => htrans i hi)
    rw [geocodeRetry]
    exact ⟨by rw [h.1]; omega, h.2⟩
  · intro k hkr htrans hk
    have h := retryAux_notFound oracle r d r 0 k (by omega) (by omega) hkr
      (fun i _ hi => htrans i hi) hk
    have hmap : List.map (fun i => d * (0 + 1 + i)) (List.range (k - 0)) =
        List.map (fun i => d * (i + 1)) (List.range k) := by
      apply List.map_congr_left
      intro x _
      congr 1
      omega
    rw [geocodeRetry, h, backoffDelays_eq, hmap]
    rfl

/-- Witness for C4: with bound 3 and base delay 1, an oracle that is
rate-limited twice and then succeeds yields the success after exactly 3
attempts with sleeps `[1, 2]`; an always-transient oracle exhausts the
bound; a first-attempt empty response is raised immediately. -/
theorem geocodeRetry_spec_witness :
    geocodeRetry (fun i => if i < 2 then .rateLimited else .ok ⟨48, 2, "Paris"⟩) 3 1 =
      (.ok ⟨48, 2, "Paris"⟩, 3, [1, 2]) ∧
    (geocodeRetry (fun _ => .rateLimited) 3 1).2.1 = 3 ∧
    geocodeRetry (fun _ => .notFound) 3 1 = (.locationNotFoundError, 1, []) := by
  have h1 := (geocodeRetry_spec
    (fun i => if i < 2 then .rateLimited else .ok ⟨48, 2, "Paris"⟩)
    ⟨48, 2, "Paris"⟩ 3 1 (by omega)).1 (by decide) (by decide)
  have h2 := ((geocodeRetry_spec (fun _ => .rateLimited) ⟨48, 2, "Paris"⟩ 3 1
    (by omega)).2.1 (by intro i _; trivial)).1
  have h3 := (geocodeRetry_spec (fun _ => .notFound) ⟨48, 2, "Paris"⟩ 3 1
    (by omega)).2.2 0 (by omega) (by omega) rfl
  refine ⟨?_, ?_, ?_⟩
  · rw [h1]; rfl
  · exact h2
  · rw [h3]; rfl

theorem retryAux_allHttp (oracle : Nat → AttemptOutcome) (r d : Nat) :
    ∀ (fuel a : Nat), a + fuel = r → a < r →
      (∀ i, a ≤ i → i < r → oracle i = .httpError) →
      (retryAux oracle r d a fuel).1 = .locationNotFoundError := by
  intro fuel
  induction fuel with
  | zero => intro a hsum hlt _; exfalso; omega
  | succ fuel ih =>
    intro a hsum hlt htrans
    have ho := htrans a le_rfl hlt
    simp only [retryAux, ho]
    by_cases ha : a < r - 1
    · rw [if_pos ha]
      exact ih (a + 1) (by omega) (by omega) fun i hi1 hi2 => htrans i (by omega) hi2
    · rw [if_neg ha]

theorem processQuery_notfound_envelope (loc : String) :
    List.lookup "success" (processQuery .locationNotFound .locationNotFound loc) =
      some (JValue.b false) ∧
    List.lookup "response" (processQuery .locationNotFound .locationNotFound loc) =
      some (JValue.s "I don't know this place exists") := by
  have hrw : (runWorkflow (FetchOutcome.locationNotFound)
      (FetchOutcome.locationNotFound) loc).1 =
      aggregate (dispatchT (FetchOutcome.locationNotFound)
        (FetchOutcome.locationNotFound) (analyzeIntentNode (initState loc), [])).1 := rfl
  rcases runWorkflow_notfound loc with ⟨he, hm⟩
  refine ⟨by rw [lookup_success, he]; rfl, ?_⟩
  rw [lookup_response]
  have hst : (dispatchT (FetchOutcome.locationNotFound)
      (FetchOutcome.locationNotFound) (analyzeIntentNode (initState loc), [])).1.error
      = true := by
    rw [hrw, aggregate_error] at he; exact he
  rw [hrw, aggregate_response_of_error _ hst]
  rw [hrw, aggregate_message] at hm
  rw [hm]

/-- C10. When every retry attempt of the geocoding call fails with a
transport-level HTTP error, the exhausted loop raises
`LocationNotFoundError` (not an upstream-unavailable error), and hence the
request surfaces as `success = false` with the location-not-found user
message "I don't know this place exists". -/
theorem geocode_transport_error_surfaces_as_notfound
    (oracle : Nat → AttemptOutcome) (r d : Nat) (loc : String) (hr : 1 ≤ r)
    (hall : ∀ i, i < r → oracle i = .httpError) :
    (geocodeRetry oracle r d).1 = .locationNotFoundError ∧
    List.lookup "success" (processQuery .locationNotFound .locationNotFound loc) =
      some (JValue.b false) ∧
    List.lookup "response" (processQuery .locationNotFound .locationNotFound loc) =
      some (JValue.s "I don't know this place exists") :=
  ⟨retryAux_allHttp oracle r d r 0 (by omega) (by omega)
      (fun i _ hi => hall i hi),
   (processQuery_notfound_envelope loc).1,
   (processQuery_notfound_envelope loc).2⟩

/-- Witness for C10: an always-unreachable provider with the default
bound 3 at a concrete location. -/
theorem geocode_transport_error_surfaces_as_notfound_witness :
    (geocodeRetry (fun _ => .httpError) 3 1).1 = .locationNotFoundError ∧
    List.lookup "response"
      (processQuery .locationNotFound .locationNotFound "Nowhereville") =
      some (JValue.s "I don't know this place exists") :=
  ⟨(geocode_transport_error_surfaces_as_notfound (fun _ => .httpError) 3 1
      "Nowhereville" (by omega) (fun i _ => rfl)).1,
   (geocode_transport_error_surfaces_as_notfound (fun _ => .httpError) 3 1
      "Nowhereville" (by omega) (fun i _ => rfl)).2.2⟩

theorem firstPass_invariant :
    ∀ (els : List OsmElement) (places seen : List String),
      places.Nodup → (∀ x ∈ places, x ∈ seen) →
      (firstPass els places seen).1.Nodup ∧
      (∀ x ∈ (firstPass els places seen).1, x ∈ (firstPass els places seen).2) := by
  intro els
  induction els with
  | nil => intro places seen h1 h2; exact ⟨h1, h2⟩
  | cons e rest ih =>
    intro places seen h1 h2
    cases hn : elementName e with
    | none =>
      simp only [firstPass, hn]
      exact ih places seen h1 h2
    | some n =>
      simp only [firstPass, hn]
      by_cases hs : seen.contains n = true
      · rw [if_pos hs]
        exact ih places seen h1 h2
      · rw [if_neg hs]
        by_cases hnot : isNotable e = true
        · rw [if_pos hnot]
          have hnin : n ∉ seen := fun hmem => hs (List.elem_iff.mpr hmem)
          have hninp : n ∉ places := fun hp => hnin (h2 n hp)
          apply ih
          · simp [List.nodup_append, h1, hninp]
          · intro x hx
            rcases List.mem_append.mp hx with hx | hx
            · exact List.mem_append_left _ (h2 x hx)
            · exact List.mem_append_right _ hx
        · rw [if_neg hnot]
          exact ih places seen h1 h2

theorem secondPass_invariant :
    ∀ (els : List OsmElement) (result seen : List String),
      result.Nodup → (∀ x ∈ result, x ∈ seen) →
      (secondPass els result seen).Nodup ∧
      ∃ fb, secondPass els result seen = result ++ fb := by
  intro els
  induction els with
  | nil => intro result seen h1 _; exact ⟨h1, [], by simp [secondPass]⟩
  | cons e rest ih =>
    intro result seen h1 h2
    simp only [secondPass]
    by_cases hlen : 5 ≤ result.length
    · rw [if_pos hlen]
      exact ⟨h1, [], by simp⟩
    · rw [if_neg hlen]
      cases hn : elementName e with
      | none =>
        simp only [hn]
        exact ih result seen h1 h2
      | some n =>
        simp only [hn]
        by_cases hs : seen.contains n = true
        · rw [if_pos hs]
          exact ih result seen h1 h2
        · rw [if_neg hs]
          have hnin : n ∉ seen := fun hmem => hs (List.elem_iff.mpr hmem)
          have hninr : n ∉ result := fun hp => hnin (h2 n hp)
          have hrec := ih (result ++ [n]) (seen ++ [n])
            (by simp [List.nodup_append, h1, hninr])
            (by
              intro x hx
              rcases List.mem_append.mp hx with hx | hx
              · exact List.mem_append_left _ (h2 x hx)
              · exact List.mem_append_right _ hx)
          refine ⟨hrec.1, ?_⟩
          rcases hrec.2 with ⟨fb, hfb⟩
          refine ⟨n :: fb, ?_⟩
          rw [hfb]
          simp

/-- C8. The attraction list produced by the places filtering pipeline
contains no two entries with the same name, has length at most 5, and the
retained entries of the notable-category pass form a prefix of the result —
every notable selection precedes every entry added by the fallback pass. -/
theorem getTouristAttractions_spec (els : List OsmElement) :
    (getTouristAttractions els).Nodup ∧
    (getTouristAttractions els).length ≤ 5 ∧
    ∃ fb, getTouristAttractions els = ((firstPass els [] []).1).take 5 ++ fb := by
  have hfp := firstPass_invariant els [] [] (by simp) (by simp)
  have htake_nodup : (((firstPass els [] []).1).take 5).Nodup :=
    (List.take_sublist 5 _).nodup hfp.1
  have htake_mem : ∀ x ∈ ((firstPass els [] []).1).take 5, x ∈ (firstPass els [] []).2 :=
    fun x hx => hfp.2 x (List.mem_of_mem_take hx)
  have key : ∀ r2 : List String, r2.Nodup →
      (∃ fb, r2 = ((firstPass els [] []).1).take 5 ++ fb) →
      (r2.take 5).Nodup ∧ (r2.take 5).length ≤ 5 ∧
      ∃ fb, r2.take 5 = ((firstPass els [] []).1).take 5 ++ fb := by
    rintro r2 hnd ⟨fb, rfl⟩
    refine ⟨(List.take_sublist 5 _).nodup hnd, List.length_take_le 5 _, ?_⟩
    rw [List.take_append_eq_append_take]
    refine ⟨fb.take (5 - (((firstPass els [] []).1).take 5).length), ?_⟩
    simp [List.take_take]
  have hunfold : getTouristAttractions els =
      (if (((firstPass els [] []).1).take 5).length < 5 then
        secondPass els (((firstPass els [] []).1).take 5) (firstPass els [] []).2
      else ((firstPass els [] []).1).take 5).take 5 := rfl
  rw [hunfold]
  by_cases hlen : (((firstPass els [] []).1).take 5).length < 5
  · rw [if_pos hlen]
    have hsp := secondPass_invariant els (((firstPass els [] []).1).take 5)
      ((firstPass els [] []).2) htake_nodup htake_mem
    exact key _ hsp.1 hsp.2
  · rw [if_neg hlen]
    exact key _ htake_nodup ⟨[], by simp⟩

end Tourism
